import Mathlib

/-
Verification of the tasm virtual machine and assembler (src/tasm.c).

The development shallowly embeds the parts of tasm.c that the checked
claims are about:

* the tape memory model (`BLOCK`, the region boundary constants, the
  privileged registers);
* the fetch-decode-execute loop `run` (lines 779-907), embedded as the
  one-iteration function `step` on a machine `State`;
* the display flush `output` (lines 742-775), embedded as the pure
  function `output_chars`;
* the assembler's mnemonic expansion `load_instruction` /
  `load_deref_instructions` (lines 269-564) and the quoted-string operand
  loop of `assemble_tasm` (lines 696-706), embedded on `AsmState`.

`DWORD` is `unsigned long` (64-bit on the LP64 hosts the program is
written for); machine words are modelled as `Nat`, with an explicit
`% 2 ^ 64` wherever the C code can wrap.
-/

namespace Tasm

/-- `typedef unsigned long DWORD` (tasm.c line 21): 64-bit unsigned words;
arithmetic on them wraps modulo `2 ^ 64`. -/
def DWORD_MOD : Nat := 2 ^ 64

/- Memory layout constants, tasm.c lines 88-107. -/

def STORE_SIZE : Nat := 100000
def STACK_SIZE : Nat := 1000
def DISPLAY_SIZE : Nat := 100000
def INSTR_SIZE : Nat := 100000

def _MEM : Nat := 0
def _MEM_END : Nat := 99999
def _STACK_END : Nat := 100000
def _STACK : Nat := 100999
def _OUT : Nat := 101000
def _OUT_END : Nat := 200999
def _MAIN : Nat := 201000
def _END : Nat := 300999

def _TEMP : Nat := 0
def _ZF : Nat := 1
def _CF : Nat := 2
def _DISP : Nat := 3
def _STK : Nat := 4
def _SAFE_MEM : Nat := 5

/-- The turing machine instruction set, tasm.c lines 174-208. -/
inductive INSTRUCTION where
  | I_NONE
  | I_HALT
  | I_JUMP
  | I_CMP
  | I_JE
  | I_JNE
  | I_JG
  | I_JGE
  | I_JL
  | I_JLE
  | I_READ
  | I_WRITE
  | I_CALL
  | I_RET
  | I_AND
  | I_OR
  | I_XOR
  | I_NOT
  | I_LSHIFT
  | I_RSHIFT
  | I_ADD
  | I_SUB
  | I_MUL
  | I_DIV
  | I_OUT
  deriving DecidableEq

/-- A tape cell, tasm.c lines 240-244 (`ins`, 64-bit `data`, byte `dtype`). -/
structure BLOCK where
  ins : INSTRUCTION
  data : Nat
  dtype : Nat
  deriving DecidableEq

/-- The tape pointer `_ptr`, tasm.c lines 251-257. -/
structure TAPE_PTR where
  pos : Nat
  data : Nat
  dtype : Nat
  deriving DecidableEq

/-- The mutable machine state: the global `tape` array (line 264) and the
global tape pointer `_ptr` (line 257).  The C array has
`STORE_SIZE + STACK_SIZE + DISPLAY_SIZE + INSTR_SIZE` cells, indices
`0` to `_END`; every access the embedded code performs is guarded by
`addr <= _END`, so the tape is modelled as a total function. -/
structure State where
  tape : Nat → BLOCK
  ptr : TAPE_PTR

/-- `tape[a].data = v` keeping the other two fields. -/
def setData (t : Nat → BLOCK) (a v : Nat) : Nat → BLOCK :=
  fun x => if x = a then { t a with data := v } else t x

/-- `tape[a].data = v; tape[a].dtype = d` (the two assignments of the
`I_WRITE` case, lines 838-839). -/
def setDataDtype (t : Nat → BLOCK) (a v d : Nat) : Nat → BLOCK :=
  fun x => if x = a then { t a with data := v, dtype := d } else t x

/-- `tape[a].ins = i; tape[a].data = v` (the emission pattern of the
assembler, e.g. lines 288-289), leaving `dtype` alone. -/
def setInsData (t : Nat → BLOCK) (a : Nat) (i : INSTRUCTION) (v : Nat) : Nat → BLOCK :=
  fun x => if x = a then { t a with ins := i, data := v } else t x

/-- `tape[a].ins = i; tape[a].data = v; tape[a].dtype = d` (the `put`
literal cell, lines 409-411). -/
def setInsDataDtype (t : Nat → BLOCK) (a : Nat) (i : INSTRUCTION) (v d : Nat) : Nat → BLOCK :=
  fun x => if x = a then { ins := i, data := v, dtype := d } else t x

/-- The static `tape` array is zero initialized: opcode `I_NONE` (value 0),
`data` 0, `dtype` 0. -/
def initTape : Nat → BLOCK := fun _ => { ins := .I_NONE, data := 0, dtype := 0 }

/-- Result of one iteration of the `while (!is_halted)` loop in `run`:
the loop continues with a new state, sets `is_halted`, or hits one of the
`exit(1)` runtime faults. -/
inductive StepResult where
  | next (s : State)
  | halted (s : State)
  | fault

/-- The `I_CMP` case, lines 809-813.  The two flag stores are sequential:
the `_CF` line re-reads `tape[addr].data` after `tape[_ZF].data` has been
assigned (visible when `addr = _ZF`). -/
def execCMP (s : State) (addr : Nat) : State :=
  let t1 := setData s.tape _ZF (if (s.tape addr).data = s.ptr.data then 1 else 0)
  let t2 := setData t1 _CF (if (t1 addr).data < s.ptr.data then 1 else 0)
  { tape := t2, ptr := { s.ptr with pos := s.ptr.pos + 1 } }

/-- The `I_WRITE` case, lines 837-843: store `_ptr.data`/`_ptr.dtype` at
`addr`, then advance `tape[_DISP]` when `addr` is at or above the display
cursor and within the display region.  The cursor test reads
`tape[_DISP].data` after the store (visible when `addr = _DISP`). -/
def execWRITE (s : State) (addr : Nat) : State :=
  let t1 := setDataDtype s.tape addr s.ptr.data s.ptr.dtype
  let t2 := if (t1 _DISP).data ≤ addr ∧ addr ≤ _OUT_END then setData t1 _DISP (addr + 1) else t1
  { tape := t2, ptr := { s.ptr with pos := s.ptr.pos + 1 } }

/-- The non-fault part of the `I_CALL` case, lines 893-895:
`tape[tape[_STK].data].data = _ptr.pos + 1; tape[_STK].data--;
_ptr.pos = addr;`.  The decrement re-reads `tape[_STK].data` after the
push and wraps like the 64-bit `--`. -/
def execCALL (s : State) (addr : Nat) : State :=
  let t1 := setData s.tape ((s.tape _STK).data) (s.ptr.pos + 1)
  let t2 := setData t1 _STK (((t1 _STK).data + DWORD_MOD - 1) % DWORD_MOD)
  { tape := t2, ptr := { s.ptr with pos := addr } }

/-- The `I_RET` case, lines 897-900: `tape[_STK].data++;
_ptr.pos = tape[tape[_STK].data].data;` with a 64-bit increment. -/
def execRET (s : State) : State :=
  let t1 := setData s.tape _STK (((s.tape _STK).data + 1) % DWORD_MOD)
  { tape := t1, ptr := { s.ptr with pos := (t1 ((t1 _STK).data)).data } }

/-- Shared shape of the bitwise/arithmetic cases (lines 844-883): store a
new `data` value at `addr` and advance. -/
def execBinop (s : State) (addr v : Nat) : State :=
  { tape := setData s.tape addr v, ptr := { s.ptr with pos := s.ptr.pos + 1 } }

/-- One iteration of the fetch-decode-execute loop in `run`, tasm.c lines
783-906: the out-of-bounds checks on `_ptr.pos` and on the fetched
`addr = tape[_ptr.pos].data`, then the `switch` on the opcode.  All 25
enum values have a case, so the `default` (invalid instruction) arm of the
`switch` is unreachable here.  The `I_OUT` case calls `output()`, which
only prints (see `output_chars`) and leaves `_ptr.pos` at the entry
position plus one.  Division by zero (`I_DIV`) is undefined behaviour in
the C source; `Nat` division by zero gives 0 here, and no claim depends
on that value. -/
def step (s : State) : StepResult :=
  if s.ptr.pos > _END then .fault
  else if (s.tape s.ptr.pos).data > _END then .fault
  else
    match (s.tape s.ptr.pos).ins with
    | .I_NONE => .next { s with ptr := { s.ptr with pos := s.ptr.pos + 1 } }
    | .I_HALT => .halted s
    | .I_JUMP => .next { s with ptr := { s.ptr with pos := (s.tape s.ptr.pos).data } }
    | .I_CMP => .next (execCMP s (s.tape s.ptr.pos).data)
    | .I_JE => .next { s with ptr := { s.ptr with pos := if (s.tape _ZF).data = 1 then (s.tape s.ptr.pos).data else s.ptr.pos + 1 } }
    | .I_JNE => .next { s with ptr := { s.ptr with pos := if (s.tape _ZF).data = 0 then (s.tape s.ptr.pos).data else s.ptr.pos + 1 } }
    | .I_JG => .next { s with ptr := { s.ptr with pos := if (s.tape _ZF).data = 0 ∧ (s.tape _CF).data = 0 then (s.tape s.ptr.pos).data else s.ptr.pos + 1 } }
    | .I_JGE => .next { s with ptr := { s.ptr with pos := if (s.tape _CF).data = 0 then (s.tape s.ptr.pos).data else s.ptr.pos + 1 } }
    | .I_JL => .next { s with ptr := { s.ptr with pos := if (s.tape _CF).data = 1 then (s.tape s.ptr.pos).data else s.ptr.pos + 1 } }
    | .I_JLE => .next { s with ptr := { s.ptr with pos := if (s.tape _ZF).data = 1 ∨ (s.tape _CF).data = 1 then (s.tape s.ptr.pos).data else s.ptr.pos + 1 } }
    | .I_READ => .next { s with ptr := { pos := s.ptr.pos + 1, data := (s.tape (s.tape s.ptr.pos).data).data, dtype := (s.tape (s.tape s.ptr.pos).data).dtype } }
    | .I_WRITE => .next (execWRITE s (s.tape s.ptr.pos).data)
    | .I_AND => .next (execBinop s (s.tape s.ptr.pos).data (Nat.land (s.tape (s.tape s.ptr.pos).data).data s.ptr.data))
    | .I_OR => .next (execBinop s (s.tape s.ptr.pos).data (Nat.lor (s.tape (s.tape s.ptr.pos).data).data s.ptr.data))
    | .I_XOR => .next (execBinop s (s.tape s.ptr.pos).data (Nat.xor (s.tape (s.tape s.ptr.pos).data).data s.ptr.data))
    | .I_NOT => .next (execBinop s (s.tape s.ptr.pos).data (if (s.tape (s.tape s.ptr.pos).data).data = 0 then 1 else 0))
    | .I_LSHIFT => .next (execBinop s (s.tape s.ptr.pos).data ((Nat.shiftLeft (s.tape (s.tape s.ptr.pos).data).data s.ptr.data) % DWORD_MOD))
    | .I_RSHIFT => .next (execBinop s (s.tape s.ptr.pos).data (Nat.shiftRight (s.tape (s.tape s.ptr.pos).data).data s.ptr.data))
    | .I_ADD => .next (execBinop s (s.tape s.ptr.pos).data (((s.tape (s.tape s.ptr.pos).data).data + s.ptr.data) % DWORD_MOD))
    | .I_SUB => .next (execBinop s (s.tape s.ptr.pos).data (((s.tape (s.tape s.ptr.pos).data).data + (DWORD_MOD - s.ptr.data % DWORD_MOD)) % DWORD_MOD))
    | .I_MUL => .next (execBinop s (s.tape s.ptr.pos).data (((s.tape (s.tape s.ptr.pos).data).data * s.ptr.data) % DWORD_MOD))
    | .I_DIV => .next (execBinop s (s.tape s.ptr.pos).data ((s.tape (s.tape s.ptr.pos).data).data / s.ptr.data))
    | .I_OUT => .next { s with ptr := { s.ptr with pos := s.ptr.pos + 1 } }
    | .I_CALL =>
        if (s.tape _STK).data < _STACK_END then .fault
        else .next (execCALL s (s.tape s.ptr.pos).data)
    | .I_RET => .next (execRET s)

/-- Iterate `step` up to `n` times, stopping at a halt or fault: the
`while (!is_halted)` loop of `run` truncated to `n` iterations. -/
def stepN : Nat → State → StepResult
  | 0, s => .next s
  | n + 1, s =>
      match step s with
      | .next s' => stepN n s'
      | r => r

/-- Instruction pointer of a step result, when the machine did not fault. -/
def rpos : StepResult → Option Nat
  | .next s => some s.ptr.pos
  | .halted s => some s.ptr.pos
  | .fault => none

/-- `tape[a].data` of a step result, when the machine did not fault. -/
def rdata (r : StepResult) (a : Nat) : Option Nat :=
  match r with
  | .next s => some ((s.tape a).data)
  | .halted s => some ((s.tape a).data)
  | .fault => none

/-- Whether a step result continues executing (neither halt nor fault). -/
def rcont : StepResult → Bool
  | .next _ => true
  | .halted _ => false
  | .fault => false

/-- Body of the display flush loop in `output`, tasm.c lines 748-773,
with the iteration count made explicit as fuel.  The loop starts at
`_OUT`, increments the cursor once per iteration and stops as soon as the
cursor reaches `_OUT_END` or `tape[_DISP].data`, so `_OUT_END - _OUT`
iterations always suffice.  Escape handling is checked before the `dtype`
test, exactly as in the source; `dtype = 0` cells print in decimal
(`printf "%lu"`), `dtype ≠ 0` cells print their low byte as a character
(`putchar((char)(val & 0xFF))`). -/
def output_loop (t : Nat → BLOCK) (disp : Nat) : Nat → Nat → Bool → List Char
  | 0, _, _ => []
  | fuel + 1, pos, is_escaped =>
      if pos < _OUT_END ∧ pos < disp then
        if is_escaped then
          (if (t pos).data = Char.toNat 'n' then ['\n']
           else if (t pos).data = Char.toNat 'r' then ['\r'] else [])
            ++ output_loop t disp fuel (pos + 1) false
        else if (t pos).dtype ≠ 0 then
          if (t pos).data = Char.toNat '\\' then output_loop t disp fuel (pos + 1) true
          else [Char.ofNat ((t pos).data % 256)] ++ output_loop t disp fuel (pos + 1) false
        else Nat.toDigits 10 (t pos).data ++ output_loop t disp fuel (pos + 1) false
      else []

/-- The text `output()` (tasm.c lines 742-775) sends to standard output:
a pure function of the tape.  `output` restores `_ptr.pos` to the entry
position plus one and changes nothing else. -/
def output_chars (t : Nat → BLOCK) : List Char :=
  output_loop t ((t _DISP).data) (_OUT_END - _OUT) _OUT false

/- ASSEMBLER -/

/-- Assembler state: the tape being filled and the emit cursor `_ptr.pos`
(only the `pos` field of `_ptr` is used during assembly). -/
structure AsmState where
  tape : Nat → BLOCK
  pos : Nat

/-- Emit one primitive cell: `tape[_ptr.pos].ins = i;
tape[_ptr.pos].data = d; _ptr.pos++;` — the three-line pattern repeated
throughout `load_instruction`. -/
def emit (st : AsmState) (i : INSTRUCTION) (d : Nat) : AsmState :=
  { tape := setInsData st.tape st.pos i d, pos := st.pos + 1 }

/-- `load_deref_instructions`, tasm.c lines 269-278: a `READ` of `addr`
followed by a `WRITE` whose target is `overwrite_at` cells past the
`WRITE` itself (the `data` of the second cell is read after the first
`_ptr.pos++`). -/
def load_deref_instructions (addr : Nat) (overwrite_at : Nat) (st : AsmState) : AsmState :=
  let st1 := emit st .I_READ addr
  emit st1 .I_WRITE (st1.pos + overwrite_at)

/-- `load_instruction`, tasm.c lines 284-564: map one tasm mnemonic to
turing machine primitives and emit them.  The chain of `strcmp` tests is
kept in source order.  A mnemonic that matches no test falls through and
emits nothing, like the C function running off its end.  Note the `sub`
case: the source advances `_ptr.pos` twice after emitting `I_SUB`
(lines 532-533), so `sub` moves the emit cursor by three, not two. -/
def load_instruction (ins : String) (a1 a2 : Nat) (data_type : Nat) (deref_1 deref_2 : Bool) (st : AsmState) : AsmState :=
  if ins = "hlt" then emit st .I_HALT 0
  else if ins = "out" then emit st .I_OUT 0
  else if ins = "ret" then emit st .I_RET 0
  else if ins = "not" then
    let st := if deref_1 then load_deref_instructions a1 1 st else st
    emit st .I_NOT a1
  else if ins = "jmp" then
    let st := if deref_1 then load_deref_instructions a1 1 st else st
    emit st .I_JUMP a1
  else if ins = "call" then
    let st := if deref_1 then load_deref_instructions a1 1 st else st
    emit st .I_CALL a1
  else if ins = "je" then
    let st := if deref_1 then load_deref_instructions a1 1 st else st
    emit st .I_JE a1
  else if ins = "jne" then
    let st := if deref_1 then load_deref_instructions a1 1 st else st
    emit st .I_JNE a1
  else if ins = "jg" then
    let st := if deref_1 then load_deref_instructions a1 1 st else st
    emit st .I_JG a1
  else if ins = "jge" then
    let st := if deref_1 then load_deref_instructions a1 1 st else st
    emit st .I_JGE a1
  else if ins = "jl" then
    let st := if deref_1 then load_deref_instructions a1 1 st else st
    emit st .I_JL a1
  else if ins = "jle" then
    let st := if deref_1 then load_deref_instructions a1 1 st else st
    emit st .I_JLE a1
  else if ins = "cmp" then
    let st := if deref_2 then load_deref_instructions a2 (if deref_1 then 3 else 1) st else st
    let st := if deref_1 then load_deref_instructions a1 2 st else st
    emit (emit st .I_READ a2) .I_CMP a1
  else if ins = "put" then
    let st := if deref_2 then load_deref_instructions a2 (if deref_1 then 3 else 1) st else st
    let st := if deref_1 then load_deref_instructions a1 3 st else st
    let stA : AsmState := { tape := setInsDataDtype st.tape st.pos .I_NONE a2 data_type, pos := st.pos + 1 }
    let stB := emit stA .I_READ (stA.pos - 1)
    emit stB .I_WRITE a1
  else if ins = "mov" then
    let st := if deref_2 then load_deref_instructions a2 (if deref_1 then 3 else 1) st else st
    let st := if deref_1 then load_deref_instructions a1 2 st else st
    emit (emit st .I_READ a2) .I_WRITE a1
  else if ins = "and" then
    let st := if deref_2 then load_deref_instructions a2 (if deref_1 then 3 else 1) st else st
    let st := if deref_1 then load_deref_instructions a1 2 st else st
    emit (emit st .I_READ a2) .I_AND a1
  else if ins = "or" then
    let st := if deref_2 then load_deref_instructions a2 (if deref_1 then 3 else 1) st else st
    let st := if deref_1 then load_deref_instructions a1 2 st else st
    emit (emit st .I_READ a2) .I_OR a1
  else if ins = "xor" then
    let st := if deref_2 then load_deref_instructions a2 (if deref_1 then 3 else 1) st else st
    let st := if deref_1 then load_deref_instructions a1 2 st else st
    emit (emit st .I_READ a2) .I_XOR a1
  else if ins = "lsh" then
    let st := if deref_2 then load_deref_instructions a2 (if deref_1 then 3 else 1) st else st
    let st := if deref_1 then load_deref_instructions a1 2 st else st
    emit (emit st .I_READ a2) .I_LSHIFT a1
  else if ins = "rsh" then
    let st := if deref_2 then load_deref_instructions a2 (if deref_1 then 3 else 1) st else st
    let st := if deref_1 then load_deref_instructions a1 2 st else st
    emit (emit st .I_READ a2) .I_RSHIFT a1
  else if ins = "add" then
    let st := if deref_2 then load_deref_instructions a2 (if deref_1 then 3 else 1) st else st
    let st := if deref_1 then load_deref_instructions a1 2 st else st
    emit (emit st .I_READ a2) .I_ADD a1
  else if ins = "sub" then
    let st := if deref_2 then load_deref_instructions a2 (if deref_1 then 3 else 1) st else st
    let st := if deref_1 then load_deref_instructions a1 2 st else st
    let st := emit (emit st .I_READ a2) .I_SUB a1
    { st with pos := st.pos + 1 }
  else if ins = "mul" then
    let st := if deref_2 then load_deref_instructions a2 (if deref_1 then 3 else 1) st else st
    let st := if deref_1 then load_deref_instructions a1 2 st else st
    emit (emit st .I_READ a2) .I_MUL a1
  else if ins = "div" then
    let st := if deref_2 then load_deref_instructions a2 (if deref_1 then 3 else 1) st else st
    let st := if deref_1 then load_deref_instructions a1 2 st else st
    emit (emit st .I_READ a2) .I_DIV a1
  else st

/-- The quoted-string operand loop of `assemble_tasm`, tasm.c lines
699-705: for each character between the quotes, `a2` is the character
code, `data_type` is 1, one `load_instruction` is made and `a1` is
incremented. -/
def load_string_operand (ins : String) (a1 : Nat) (chars : List Nat) (deref_1 deref_2 : Bool) (st : AsmState) : AsmState :=
  match chars with
  | [] => st
  | c :: rest =>
      load_string_operand ins (a1 + 1) rest deref_1 deref_2 (load_instruction ins a1 c 1 deref_1 deref_2 st)

/-- The tail of `assemble_tasm`, tasm.c lines 722-736: append the safety
`I_HALT` at the final emit position, point `_ptr.pos` at the resolved
`main` label, and initialize the `_DISP` and `_STK` registers.  The
`_ptr.data`/`_ptr.dtype` scratch starts zeroed (static storage). -/
def finish_assembly (st : AsmState) (main_addr : Nat) : State :=
  let t1 := setInsData st.tape st.pos .I_HALT 0
  let t2 := setData t1 _DISP _OUT
  let t3 := setData t2 _STK _STACK
  { tape := t3, ptr := { pos := main_addr, data := 0, dtype := 0 } }

/- Concrete machine states used to instantiate and to refute the claims. -/

/-- The primitives that store through their operand address
`addr = tape[_ptr.pos].data`: `I_WRITE` (lines 837-839) and the
bitwise/arithmetic group (lines 844-883). -/
def writesThroughAddr : INSTRUCTION → Bool
  | .I_WRITE => true
  | .I_AND => true
  | .I_OR => true
  | .I_XOR => true
  | .I_NOT => true
  | .I_LSHIFT => true
  | .I_RSHIFT => true
  | .I_ADD => true
  | .I_SUB => true
  | .I_MUL => true
  | .I_DIV => true
  | _ => false

/-- The machine state `assemble_tasm` produces for the program
`main:` / `put 0x5 9` / `not [0x5]` / `hlt`: cells 201000-201002 are the
`put` expansion, 201003-201004 the dereference trampoline for `[0x5]`,
201005 the `I_NOT` primitive with operand 5, 201006 the `hlt`, 201007
the safety halt. -/
def sC1 : State :=
  finish_assembly
    (load_instruction ("hlt") 0 0 0 false false
      (load_instruction ("not") 5 0 0 true false
        (load_instruction ("put") 5 9 0 false false { tape := initTape, pos := _MAIN })))
    _MAIN

/-- A state about to execute `I_ADD` with operand address 10 (for the C1
witness). -/
def sC1w : State :=
  { tape := setData (setInsData initTape 201000 .I_ADD 10) 10 7,
    ptr := { pos := 201000, data := 4, dtype := 0 } }

def sC1w' : State :=
  execBinop sC1w ((sC1w.tape sC1w.ptr.pos).data)
    (((sC1w.tape ((sC1w.tape sC1w.ptr.pos).data)).data + sC1w.ptr.data) % DWORD_MOD)

/-- The machine state `assemble_tasm` produces for the program
`main:` / `jmp 0x0` / `hlt`. -/
def sC2 : State :=
  finish_assembly
    (load_instruction ("hlt") 0 0 0 false false
      (load_instruction ("jmp") 0 0 0 false false { tape := initTape, pos := _MAIN }))
    _MAIN

/-- A state whose instruction pointer is one past the code region. -/
def sC2hi : State := { tape := initTape, ptr := { pos := 301000, data := 0, dtype := 0 } }

/-- The assembler state after `load_instruction` on `sub 0x5 0x6` (direct
operands) starting at the beginning of the code region. -/
def stC3 : AsmState := load_instruction ("sub") 5 6 0 false false { tape := initTape, pos := _MAIN }

/-- A state about to execute `I_CALL 201500` with the `_STK` register at
the stack region's low bound `_STACK_END`. -/
def sC4 : State :=
  { tape := setData (setInsData initTape 201000 .I_CALL 201500) _STK _STACK_END,
    ptr := { pos := 201000, data := 0, dtype := 0 } }

/-- A state about to execute `I_CALL 201500` with `_STK` at 100500. -/
def sC4w : State :=
  { tape := setData (setInsData initTape 201000 .I_CALL 201500) _STK 100500,
    ptr := { pos := 201000, data := 0, dtype := 0 } }

/-- The lowering of `cmp 0x1 0x5` (`I_READ 5` then `I_CMP 1`) followed by
`jl 0x31144` (201100), with `tape[1].data = tape[5].data = 7`: the
compared address is the `_ZF` register itself. -/
def sC5 : State :=
  { tape := setData (setData
      (setInsData (setInsData (setInsData initTape 201000 .I_READ 5) 201001 .I_CMP 1)
        201002 .I_JL 201100) 1 7) 5 7,
    ptr := { pos := 201000, data := 0, dtype := 0 } }

/-- The lowering of `cmp 0x6 0x5` followed by `jl 0x31144`, with
`tape[6].data = 3` and `tape[5].data = 9` (for the C5 witness). -/
def sC5w : State :=
  { tape := setData (setData
      (setInsData (setInsData (setInsData initTape 201000 .I_READ 5) 201001 .I_CMP 6)
        201002 .I_JL 201100) 6 3) 5 9,
    ptr := { pos := 201000, data := 0, dtype := 0 } }

def sC5w1 : State :=
  { sC5w with
    ptr := { pos := sC5w.ptr.pos + 1,
             data := (sC5w.tape ((sC5w.tape sC5w.ptr.pos).data)).data,
             dtype := (sC5w.tape ((sC5w.tape sC5w.ptr.pos).data)).dtype } }

def sC5w2 : State := execCMP sC5w1 ((sC5w1.tape sC5w1.ptr.pos).data)

def sC5w3 : State :=
  { sC5w2 with
    ptr := { sC5w2.ptr with
             pos := if (sC5w2.tape _CF).data = 1 then (sC5w2.tape sC5w2.ptr.pos).data
                    else sC5w2.ptr.pos + 1 } }

/-- A state about to execute `I_WRITE` to display address 150000 with
`_DISP = _OUT`. -/
def sC6 : State :=
  { tape := setData (setInsData initTape 201000 .I_WRITE 150000) _DISP _OUT,
    ptr := { pos := 201000, data := 65, dtype := 1 } }

def sC6' : State := execWRITE sC6 ((sC6.tape sC6.ptr.pos).data)

/-- The assembler state the C7 witness starts from (an empty tape with
the emit cursor at the base of the code region). -/
def stC7 : AsmState := { tape := initTape, pos := _MAIN }

/-- A state about to execute `I_OUT`. -/
def sC8 : State :=
  { tape := setInsData initTape 201000 .I_OUT 0,
    ptr := { pos := 201000, data := 0, dtype := 0 } }

def sC8' : State := { sC8 with ptr := { sC8.ptr with pos := sC8.ptr.pos + 1 } }

/-- A state about to execute `I_ADD` with operand address 10 (for the C9
witness). -/
def sC9 : State :=
  { tape := setData (setInsData initTape 201000 .I_ADD 10) 10 7,
    ptr := { pos := 201000, data := 4, dtype := 0 } }

def sC9' : State :=
  execBinop sC9 ((sC9.tape sC9.ptr.pos).data)
    (((sC9.tape ((sC9.tape sC9.ptr.pos).data)).data + sC9.ptr.data) % DWORD_MOD)

/-- A state about to execute `I_JE 201500` with the `_ZF` cell holding 2
(neither 0 nor 1). -/
def sC10 : State :=
  { tape := setData (setInsData initTape 201000 .I_JE 201500) _ZF 2,
    ptr := { pos := 201000, data := 0, dtype := 0 } }

/- Small facts about the tape update helpers. -/

lemma setData_at (t : Nat → BLOCK) (a v : Nat) : setData t a v a = { t a with data := v } := by
  simp [setData]

lemma setData_of_ne (t : Nat → BLOCK) (a v x : Nat) (h : x ≠ a) : setData t a v x = t x := by
  simp [setData, h]

lemma setDataDtype_of_ne (t : Nat → BLOCK) (a v d x : Nat) (h : x ≠ a) :
    setDataDtype t a v d x = t x := by
  simp [setDataDtype, h]

lemma setData_dtype (t : Nat → BLOCK) (a v x : Nat) :
    (setData t a v x).dtype = (t x).dtype := by
  unfold setData
  split
  · rename_i h
    subst h
    rfl
  · rfl

/-- A step that continues implies both fetch bound checks passed. -/
lemma pos_le_of_step_next (s s' : State) (h : step s = .next s') :
    s.ptr.pos ≤ _END ∧ (s.tape s.ptr.pos).data ≤ _END := by
  unfold step at h
  by_cases h1 : s.ptr.pos > _END
  · rw [if_pos h1] at h
    exact absurd h (by simp)
  · rw [if_neg h1] at h
    by_cases h2 : (s.tape s.ptr.pos).data > _END
    · rw [if_pos h2] at h
      exact absurd h (by simp)
    · exact ⟨by omega, by omega⟩

/-- Characterization of a step executing `I_READ` with operand `b`. -/
lemma step_read (s : State) (b : Nat)
    (hp : s.ptr.pos ≤ _END) (ha : (s.tape s.ptr.pos).data ≤ _END)
    (hi : (s.tape s.ptr.pos).ins = .I_READ) (hd : (s.tape s.ptr.pos).data = b) :
    step s = .next { s with ptr := { pos := s.ptr.pos + 1, data := (s.tape b).data, dtype := (s.tape b).dtype } } := by
  unfold step
  rw [if_neg (by omega), if_neg (by omega), hi]
  show StepResult.next { s with ptr := { pos := s.ptr.pos + 1, data := (s.tape ((s.tape s.ptr.pos).data)).data, dtype := (s.tape ((s.tape s.ptr.pos).data)).dtype } } = _
  rw [hd]

/-- Characterization of a step executing `I_CMP` with operand `a`. -/
lemma step_cmp (s : State) (a : Nat)
    (hp : s.ptr.pos ≤ _END) (ha : (s.tape s.ptr.pos).data ≤ _END)
    (hi : (s.tape s.ptr.pos).ins = .I_CMP) (hd : (s.tape s.ptr.pos).data = a) :
    step s = .next (execCMP s a) := by
  unfold step
  rw [if_neg (by omega), if_neg (by omega), hi]
  show StepResult.next (execCMP s ((s.tape s.ptr.pos).data)) = _
  rw [hd]

/-- Characterization of a step executing `I_JL` with target `t`. -/
lemma step_jl (s : State) (t : Nat)
    (hp : s.ptr.pos ≤ _END) (ha : (s.tape s.ptr.pos).data ≤ _END)
    (hi : (s.tape s.ptr.pos).ins = .I_JL) (hd : (s.tape s.ptr.pos).data = t) :
    step s = .next { s with ptr := { s.ptr with pos := if (s.tape _CF).data = 1 then t else s.ptr.pos + 1 } } := by
  unfold step
  rw [if_neg (by omega), if_neg (by omega), hi]
  show StepResult.next { s with ptr := { s.ptr with pos := if (s.tape _CF).data = 1 then (s.tape s.ptr.pos).data else s.ptr.pos + 1 } } = _
  rw [hd]

lemma execCMP_pos (s : State) (addr : Nat) : (execCMP s addr).ptr.pos = s.ptr.pos + 1 := rfl

/-- `execCMP` writes only the two flag cells. -/
lemma execCMP_tape_outside (s : State) (addr x : Nat) (hx1 : x ≠ _ZF) (hx2 : x ≠ _CF) :
    (execCMP s addr).tape x = s.tape x := by
  simp only [execCMP]
  rw [setData_of_ne _ _ _ _ hx2, setData_of_ne _ _ _ _ hx1]

/-- The `_ZF` value `execCMP` leaves. -/
lemma execCMP_ZF (s : State) (addr : Nat) :
    ((execCMP s addr).tape _ZF).data = if (s.tape addr).data = s.ptr.data then 1 else 0 := by
  simp only [execCMP]
  rw [setData_of_ne _ _ _ _ (show _ZF ≠ _CF by decide), setData_at]

/-- The `_CF` value `execCMP` leaves, when the compared address is not
the `_ZF` cell itself (the `_ZF` store precedes the `_CF` comparison). -/
lemma execCMP_CF (s : State) (addr : Nat) (h : addr ≠ _ZF) :
    ((execCMP s addr).tape _CF).data = if (s.tape addr).data < s.ptr.data then 1 else 0 := by
  simp only [execCMP]
  rw [setData_at]
  show (if (setData s.tape _ZF (if (s.tape addr).data = s.ptr.data then 1 else 0) addr).data < s.ptr.data then 1 else 0) = _
  rw [setData_of_ne _ _ _ _ h]

/-- C6: for every executed `WRITE` primitive whose destination address
lies in the display region (`_OUT` to `_OUT_END`): a destination below
the current `_DISP` register leaves `_DISP` unchanged, a destination at
or above it sets `_DISP` to the destination plus one, and in either case
`_DISP` exceeds the destination afterwards. -/
theorem C6_display_write (s s' : State)
    (hins : (s.tape s.ptr.pos).ins = .I_WRITE)
    (hlo : _OUT ≤ (s.tape s.ptr.pos).data)
    (hhi : (s.tape s.ptr.pos).data ≤ _OUT_END)
    (hstep : step s = .next s') :
    ((s.tape s.ptr.pos).data < (s.tape _DISP).data → (s'.tape _DISP).data = (s.tape _DISP).data) ∧
    ((s.tape _DISP).data ≤ (s.tape s.ptr.pos).data → (s'.tape _DISP).data = (s.tape s.ptr.pos).data + 1) ∧
    (s.tape s.ptr.pos).data < (s'.tape _DISP).data := by
  have hlo' : 101000 ≤ (s.tape s.ptr.pos).data := hlo
  have hhi' : (s.tape s.ptr.pos).data ≤ 200999 := hhi
  have h3 : _DISP ≠ (s.tape s.ptr.pos).data := by
    show (3 : Nat) ≠ _
    omega
  unfold step at hstep
  split at hstep
  · exact absurd hstep (by simp)
  · split at hstep
    · exact absurd hstep (by simp)
    · rw [hins] at hstep
      simp only [StepResult.next.injEq] at hstep
      subst hstep
      simp only [execWRITE]
      rw [setDataDtype_of_ne _ _ _ _ _ h3]
      by_cases hc : (s.tape _DISP).data ≤ (s.tape s.ptr.pos).data
      · rw [if_pos ⟨hc, hhi⟩]
        refine ⟨fun h => absurd hc (by omega), fun _ => ?_, ?_⟩
        · simp [setData_at]
        · simp only [setData_at]
          omega
      · rw [if_neg (fun hand => hc hand.1)]
        rw [setDataDtype_of_ne _ _ _ _ _ h3]
        exact ⟨fun _ => rfl, fun h => absurd h hc, by omega⟩

/-- C6 witness: the theorem applied to the concrete `WRITE` of `sC6`. -/
theorem C6_witness :
    (_OUT ≤ (sC6.tape sC6.ptr.pos).data) ∧
    (((sC6.tape sC6.ptr.pos).data < (sC6.tape _DISP).data → (sC6'.tape _DISP).data = (sC6.tape _DISP).data) ∧
     ((sC6.tape _DISP).data ≤ (sC6.tape sC6.ptr.pos).data → (sC6'.tape _DISP).data = (sC6.tape sC6.ptr.pos).data + 1) ∧
     (sC6.tape sC6.ptr.pos).data < (sC6'.tape _DISP).data) :=
  ⟨by decide, C6_display_write sC6 sC6' (by decide) (by decide) (by decide) rfl⟩

/-- C8: executing the `OUT` primitive leaves every tape cell (display
region, `_DISP` register and all others) unchanged and only advances the
instruction pointer, so the text a second `OUT` would flush is the same
as the first one's. -/
theorem C8_out_pure (s s' : State)
    (hins : (s.tape s.ptr.pos).ins = .I_OUT)
    (hstep : step s = .next s') :
    (∀ a, s'.tape a = s.tape a) ∧ s'.ptr.pos = s.ptr.pos + 1 ∧
    output_chars s'.tape = output_chars s.tape := by
  unfold step at hstep
  split at hstep
  · exact absurd hstep (by simp)
  · split at hstep
    · exact absurd hstep (by simp)
    · rw [hins] at hstep
      simp only [StepResult.next.injEq] at hstep
      subst hstep
      exact ⟨fun a => rfl, rfl, rfl⟩

/-- C8 witness: the theorem applied to the concrete `OUT` of `sC8`. -/
theorem C8_witness :
    sC8'.tape 150000 = sC8.tape 150000 ∧ sC8'.ptr.pos = sC8.ptr.pos + 1 ∧
    output_chars sC8'.tape = output_chars sC8.tape :=
  ⟨(C8_out_pure sC8 sC8' rfl rfl).1 150000,
   (C8_out_pure sC8 sC8' rfl rfl).2.1,
   (C8_out_pure sC8 sC8' rfl rfl).2.2⟩

/-- C10: `I_JE` branches exactly when `tape[_ZF].data = 1` and `I_JNE`
exactly when `tape[_ZF].data = 0`; with any flag value other than 0 and 1
both fall through to the next cell. -/
theorem C10_flag_jumps (s : State)
    (hpos : s.ptr.pos ≤ _END)
    (haddr : (s.tape s.ptr.pos).data ≤ _END) :
    ((s.tape s.ptr.pos).ins = .I_JE →
      step s = .next { s with ptr := { s.ptr with pos := if (s.tape _ZF).data = 1 then (s.tape s.ptr.pos).data else s.ptr.pos + 1 } }) ∧
    ((s.tape s.ptr.pos).ins = .I_JNE →
      step s = .next { s with ptr := { s.ptr with pos := if (s.tape _ZF).data = 0 then (s.tape s.ptr.pos).data else s.ptr.pos + 1 } }) ∧
    ((s.tape _ZF).data ≠ 0 → (s.tape _ZF).data ≠ 1 →
      ((s.tape s.ptr.pos).ins = .I_JE ∨ (s.tape s.ptr.pos).ins = .I_JNE) →
      step s = .next { s with ptr := { s.ptr with pos := s.ptr.pos + 1 } }) := by
  refine ⟨?_, ?_, ?_⟩
  · intro hins
    unfold step
    rw [if_neg (by omega), if_neg (by omega), hins]
  · intro hins
    unfold step
    rw [if_neg (by omega), if_neg (by omega), hins]
  · intro h0 h1 hor
    rcases hor with hins | hins
    · unfold step
      rw [if_neg (by omega), if_neg (by omega), hins]
      simp only [if_neg h1]
    · unfold step
      rw [if_neg (by omega), if_neg (by omega), hins]
      simp only [if_neg h0]

/-- C10 witness: with the flag cell holding 2, the concrete `I_JE` of
`sC10` falls through. -/
theorem C10_witness :
    (sC10.tape _ZF).data = 2 ∧
    step sC10 = .next { sC10 with ptr := { sC10.ptr with pos := sC10.ptr.pos + 1 } } :=
  ⟨by decide,
   (C10_flag_jumps sC10 (by decide) (by decide)).2.2 (by decide) (by decide) (Or.inl rfl)⟩

/-- C2 (amended): the fetch step checks only the high bound of the code
region: a state whose instruction pointer is above `_END` faults before
executing anything.  (The low bound is not checked: see
`C2_counterexample`, where the pointer leaves the code region downward
and execution continues.) -/
theorem C2_amended (s : State) (h : _END < s.ptr.pos) : step s = .fault := by
  unfold step
  rw [if_pos (by omega)]

/-- C2 witness: the theorem applied to `sC2hi` (pointer at 301000). -/
theorem C2_witness : _END < sC2hi.ptr.pos ∧ step sC2hi = .fault :=
  ⟨by decide, C2_amended sC2hi (by decide)⟩

/-- C2 counterexample: running the assembled program `main:` / `jmp 0x0`
/ `hlt`, one step moves the instruction pointer to 0 — outside the code
region (`0 < _MAIN`) — without a fault and without halting, and the next
step also continues executing (the cell at 0 is inert).  This refutes
both parts of the claim: a reachable, unhalted state has its pointer
outside the code region, and the step that moved it there neither
faulted nor stopped. -/
theorem C2_counterexample :
    rpos (stepN 1 sC2) = some 0 ∧ rcont (stepN 1 sC2) = true ∧
    rcont (stepN 2 sC2) = true ∧ (0 : Nat) < _MAIN := by decide

/-- C9: the bitwise and arithmetic primitives modify only the `data`
field of the cell at their operand address — its `ins` and `dtype`
fields and every other cell are untouched — whereas `I_WRITE` also
overwrites the destination's `dtype` with the staged `_ptr.dtype`. -/
theorem C9_arith_frame (s s' : State) (hstep : step s = .next s') :
    (((s.tape s.ptr.pos).ins = .I_AND ∨ (s.tape s.ptr.pos).ins = .I_OR ∨
      (s.tape s.ptr.pos).ins = .I_XOR ∨ (s.tape s.ptr.pos).ins = .I_NOT ∨
      (s.tape s.ptr.pos).ins = .I_LSHIFT ∨ (s.tape s.ptr.pos).ins = .I_RSHIFT ∨
      (s.tape s.ptr.pos).ins = .I_ADD ∨ (s.tape s.ptr.pos).ins = .I_SUB ∨
      (s.tape s.ptr.pos).ins = .I_MUL ∨ (s.tape s.ptr.pos).ins = .I_DIV) →
      ((s'.tape ((s.tape s.ptr.pos).data)).ins = (s.tape ((s.tape s.ptr.pos).data)).ins ∧
       (s'.tape ((s.tape s.ptr.pos).data)).dtype = (s.tape ((s.tape s.ptr.pos).data)).dtype ∧
       ∀ x, x ≠ (s.tape s.ptr.pos).data → s'.tape x = s.tape x)) ∧
    ((s.tape s.ptr.pos).ins = .I_WRITE →
      (s'.tape ((s.tape s.ptr.pos).data)).dtype = s.ptr.dtype) := by
  constructor
  · intro h10
    unfold step at hstep
    split at hstep
    · exact absurd hstep (by simp)
    · split at hstep
      · exact absurd hstep (by simp)
      · rcases h10 with h | h | h | h | h | h | h | h | h | h <;>
          rw [h] at hstep <;>
          simp only [StepResult.next.injEq] at hstep <;>
          subst hstep <;>
          exact ⟨by simp [execBinop, setData_at],
                 by simp [execBinop, setData_at],
                 fun x hx => by simp [execBinop, setData_of_ne _ _ _ _ hx]⟩
  · intro hw
    unfold step at hstep
    split at hstep
    · exact absurd hstep (by simp)
    · split at hstep
      · exact absurd hstep (by simp)
      · rw [hw] at hstep
        simp only [StepResult.next.injEq] at hstep
        subst hstep
        simp only [execWRITE]
        split <;> simp [setData_dtype, setDataDtype]

/-- C9 witness: the frame applied to the concrete `I_ADD` of `sC9`. -/
theorem C9_witness :
    (sC9'.tape 10).ins = (sC9.tape 10).ins ∧
    (sC9'.tape 10).dtype = (sC9.tape 10).dtype ∧
    sC9'.tape 201000 = sC9.tape 201000 :=
  ⟨((C9_arith_frame sC9 sC9' rfl).1 (by decide)).1,
   ((C9_arith_frame sC9 sC9' rfl).1 (by decide)).2.1,
   ((C9_arith_frame sC9 sC9' rfl).1 (by decide)).2.2 201000 (by decide)⟩

/-- C1 (amended): a step of the VM leaves every code-region cell
unchanged unless the executed primitive stores through an address in the
code region — a `WRITE`/bitwise/arithmetic primitive whose operand
address is at or above `_MAIN`, or a `CALL` whose `_STK` register points
there.  The trampoline `WRITE` emitted by `load_deref_instructions` for
an indirect operand is exactly such a store: at run time it rewrites the
`data` field of the code cell it targets (`C1_counterexample`). -/
theorem C1_amended (s s' : State)
    (h1 : writesThroughAddr (s.tape s.ptr.pos).ins = true → (s.tape s.ptr.pos).data < _MAIN)
    (h2 : (s.tape s.ptr.pos).ins = .I_CALL → (s.tape _STK).data < _MAIN)
    (hstep : step s = .next s') :
    ∀ a, _MAIN ≤ a → s'.tape a = s.tape a := by
  intro a ha
  have ha' : 201000 ≤ a := ha
  unfold step at hstep
  split at hstep
  · exact absurd hstep (by simp)
  split at hstep
  · exact absurd hstep (by simp)
  cases hins : (s.tape s.ptr.pos).ins
  case I_NONE =>
    rw [hins] at hstep
    simp only [StepResult.next.injEq] at hstep
    subst hstep
    rfl
  case I_HALT =>
    rw [hins] at hstep
    exact absurd hstep (by simp)
  case I_JUMP =>
    rw [hins] at hstep
    simp only [StepResult.next.injEq] at hstep
    subst hstep
    rfl
  case I_CMP =>
    rw [hins] at hstep
    simp only [StepResult.next.injEq] at hstep
    subst hstep
    simp only [execCMP]
    rw [setData_of_ne _ _ _ _ (show a ≠ _CF by show a ≠ 2; omega)]
    rw [setData_of_ne _ _ _ _ (show a ≠ _ZF by show a ≠ 1; omega)]
  case I_JE =>
    rw [hins] at hstep
    simp only [StepResult.next.injEq] at hstep
    subst hstep
    rfl
  case I_JNE =>
    rw [hins] at hstep
    simp only [StepResult.next.injEq] at hstep
    subst hstep
    rfl
  case I_JG =>
    rw [hins] at hstep
    simp only [StepResult.next.injEq] at hstep
    subst hstep
    rfl
  case I_JGE =>
    rw [hins] at hstep
    simp only [StepResult.next.injEq] at hstep
    subst hstep
    rfl
  case I_JL =>
    rw [hins] at hstep
    simp only [StepResult.next.injEq] at hstep
    subst hstep
    rfl
  case I_JLE =>
    rw [hins] at hstep
    simp only [StepResult.next.injEq] at hstep
    subst hstep
    rfl
  case I_READ =>
    rw [hins] at hstep
    simp only [StepResult.next.injEq] at hstep
    subst hstep
    rfl
  case I_WRITE =>
    rw [hins] at hstep
    simp only [StepResult.next.injEq] at hstep
    subst hstep
    have haddr' : (s.tape s.ptr.pos).data < 201000 := h1 (by rw [hins]; rfl)
    simp only [execWRITE]
    split
    · rw [setData_of_ne _ _ _ _ (show a ≠ _DISP by show a ≠ 3; omega)]
      rw [setDataDtype_of_ne _ _ _ _ _ (show a ≠ (s.tape s.ptr.pos).data by omega)]
    · rw [setDataDtype_of_ne _ _ _ _ _ (show a ≠ (s.tape s.ptr.pos).data by omega)]
  case I_AND =>
    rw [hins] at hstep
    simp only [StepResult.next.injEq] at hstep
    subst hstep
    have haddr' : (s.tape s.ptr.pos).data < 201000 := h1 (by rw [hins]; rfl)
    simp only [execBinop]
    rw [setData_of_ne _ _ _ _ (show a ≠ (s.tape s.ptr.pos).data by omega)]
  case I_OR =>
    rw [hins] at hstep
    simp only [StepResult.next.injEq] at hstep
    subst hstep
    have haddr' : (s.tape s.ptr.pos).data < 201000 := h1 (by rw [hins]; rfl)
    simp only [execBinop]
    rw [setData_of_ne _ _ _ _ (show a ≠ (s.tape s.ptr.pos).data by omega)]
  case I_XOR =>
    rw [hins] at hstep
    simp only [StepResult.next.injEq] at hstep
    subst hstep
    have haddr' : (s.tape s.ptr.pos).data < 201000 := h1 (by rw [hins]; rfl)
    simp only [execBinop]
    rw [setData_of_ne _ _ _ _ (show a ≠ (s.tape s.ptr.pos).data by omega)]
  case I_NOT =>
    rw [hins] at hstep
    simp only [StepResult.next.injEq] at hstep
    subst hstep
    have haddr' : (s.tape s.ptr.pos).data < 201000 := h1 (by rw [hins]; rfl)
    simp only [execBinop]
    rw [setData_of_ne _ _ _ _ (show a ≠ (s.tape s.ptr.pos).data by omega)]
  case I_LSHIFT =>
    rw [hins] at hstep
    simp only [StepResult.next.injEq] at hstep
    subst hstep
    have haddr' : (s.tape s.ptr.pos).data < 201000 := h1 (by rw [hins]; rfl)
    simp only [execBinop]
    rw [setData_of_ne _ _ _ _ (show a ≠ (s.tape s.ptr.pos).data by omega)]
  case I_RSHIFT =>
    rw [hins] at hstep
    simp only [StepResult.next.injEq] at hstep
    subst hstep
    have haddr' : (s.tape s.ptr.pos).data < 201000 := h1 (by rw [hins]; rfl)
    simp only [execBinop]
    rw [setData_of_ne _ _ _ _ (show a ≠ (s.tape s.ptr.pos).data by omega)]
  case I_ADD =>
    rw [hins] at hstep
    simp only [StepResult.next.injEq] at hstep
    subst hstep
    have haddr' : (s.tape s.ptr.pos).data < 201000 := h1 (by rw [hins]; rfl)
    simp only [execBinop]
    rw [setData_of_ne _ _ _ _ (show a ≠ (s.tape s.ptr.pos).data by omega)]
  case I_SUB =>
    rw [hins] at hstep
    simp only [StepResult.next.injEq] at hstep
    subst hstep
    have haddr' : (s.tape s.ptr.pos).data < 201000 := h1 (by rw [hins]; rfl)
    simp only [execBinop]
    rw [setData_of_ne _ _ _ _ (show a ≠ (s.tape s.ptr.pos).data by omega)]
  case I_MUL =>
    rw [hins] at hstep
    simp only [StepResult.next.injEq] at hstep
    subst hstep
    have haddr' : (s.tape s.ptr.pos).data < 201000 := h1 (by rw [hins]; rfl)
    simp only [execBinop]
    rw [setData_of_ne _ _ _ _ (show a ≠ (s.tape s.ptr.pos).data by omega)]
  case I_DIV =>
    rw [hins] at hstep
    simp only [StepResult.next.injEq] at hstep
    subst hstep
    have haddr' : (s.tape s.ptr.pos).data < 201000 := h1 (by rw [hins]; rfl)
    simp only [execBinop]
    rw [setData_of_ne _ _ _ _ (show a ≠ (s.tape s.ptr.pos).data by omega)]
  case I_OUT =>
    rw [hins] at hstep
    simp only [StepResult.next.injEq] at hstep
    subst hstep
    rfl
  case I_CALL =>
    rw [hins] at hstep
    have hstep' : (if (s.tape _STK).data < _STACK_END then StepResult.fault
        else StepResult.next (execCALL s ((s.tape s.ptr.pos).data))) = StepResult.next s' := hstep
    split at hstep'
    · exact absurd hstep' (by simp)
    · simp only [StepResult.next.injEq] at hstep'
      subst hstep'
      have hstk' : (s.tape _STK).data < 201000 := h2 hins
      simp only [execCALL]
      rw [setData_of_ne _ _ _ _ (show a ≠ _STK by show a ≠ 4; omega)]
      rw [setData_of_ne _ _ _ _ (show a ≠ (s.tape _STK).data by omega)]
  case I_RET =>
    rw [hins] at hstep
    simp only [StepResult.next.injEq] at hstep
    subst hstep
    simp only [execRET]
    rw [setData_of_ne _ _ _ _ (show a ≠ _STK by show a ≠ 4; omega)]

/-- C1 witness: the amended frame applied to the concrete `I_ADD` of
`sC1w`, whose operand address 10 is below the code region. -/
theorem C1_witness :
    (sC1w.tape sC1w.ptr.pos).data < _MAIN ∧ sC1w'.tape 250000 = sC1w.tape 250000 :=
  ⟨by decide, C1_amended sC1w sC1w' (by decide) (by decide) rfl 250000 (by decide)⟩

/-- C1 counterexample: in the assembled program `main:` / `put 0x5 9` /
`not [0x5]` / `hlt`, the code cell 201005 (the `I_NOT` primitive, whose
`data` field the assembler set to 5) is rewritten to 9 at run time by the
trampoline `WRITE` at 201004 — a cell of the code region
(`_MAIN ≤ 201005 ≤ _END`) mutated by a primitive after assembly. -/
theorem C1_counterexample :
    (sC1.tape 201005).ins = .I_NOT ∧ (sC1.tape 201005).data = 5 ∧
    rdata (stepN 5 sC1) 201005 = some 9 ∧
    _MAIN ≤ 201005 ∧ (201005 : Nat) ≤ _END := by decide

/-- C4 (amended): `I_CALL` faults with a stack overflow exactly when the
`_STK` register is already strictly below the stack region's low bound
`_STACK_END`; otherwise — including when `_STK` equals `_STACK_END`,
which does not fault — it stores the next instruction's address at
`tape[_STK]`, decrements `_STK` by one and jumps to the call target. -/
theorem C4_amended (s : State)
    (hpos : s.ptr.pos ≤ _END)
    (haddr : (s.tape s.ptr.pos).data ≤ _END)
    (hins : (s.tape s.ptr.pos).ins = .I_CALL)
    (hM : (s.tape _STK).data < DWORD_MOD) :
    ((s.tape _STK).data < _STACK_END → step s = .fault) ∧
    (_STACK_END ≤ (s.tape _STK).data →
      ∃ s', step s = .next s' ∧
        (s'.tape ((s.tape _STK).data)).data = s.ptr.pos + 1 ∧
        (s'.tape _STK).data = (s.tape _STK).data - 1 ∧
        s'.ptr.pos = (s.tape s.ptr.pos).data) := by
  have hred : step s = if (s.tape _STK).data < _STACK_END then .fault
      else .next (execCALL s ((s.tape s.ptr.pos).data)) := by
    unfold step
    rw [if_neg (by omega), if_neg (by omega), hins]
  constructor
  · intro hlow
    rw [hred, if_pos hlow]
  · intro hge
    have hge' : 100000 ≤ (s.tape _STK).data := hge
    have hM' : (s.tape _STK).data < DWORD_MOD := hM
    rw [hred, if_neg (by omega)]
    refine ⟨execCALL s ((s.tape s.ptr.pos).data), rfl, ?_, ?_, rfl⟩
    · simp only [execCALL]
      rw [setData_of_ne _ _ _ _ (show (s.tape _STK).data ≠ _STK by show _ ≠ (4 : Nat); omega)]
      rw [setData_at]
    · simp only [execCALL]
      rw [setData_of_ne _ _ _ _ (show _STK ≠ (s.tape _STK).data by show (4 : Nat) ≠ _; omega)]
      rw [setData_at]
      show ((s.tape _STK).data + DWORD_MOD - 1) % DWORD_MOD = (s.tape _STK).data - 1
      have e1 : (s.tape _STK).data + DWORD_MOD - 1 = ((s.tape _STK).data - 1) + DWORD_MOD := by
        omega
      rw [e1, Nat.add_mod_right, Nat.mod_eq_of_lt (by omega)]

/-- C4 witness: the amended call semantics applied to the concrete
`I_CALL` of `sC4w` (`_STK` at 100500). -/
theorem C4_witness :
    _STACK_END ≤ (sC4w.tape _STK).data ∧
    (∃ s', step sC4w = .next s' ∧
      (s'.tape ((sC4w.tape _STK).data)).data = sC4w.ptr.pos + 1 ∧
      (s'.tape _STK).data = (sC4w.tape _STK).data - 1 ∧
      s'.ptr.pos = (sC4w.tape sC4w.ptr.pos).data) :=
  ⟨by decide,
   (C4_amended sC4w (by decide) (by decide) (by decide) (by decide)).2 (by decide)⟩

/-- C4 counterexample: with the `_STK` register exactly at the stack
region's low bound `_STACK_END` (100000), `I_CALL` does not fault — it
uses the last slot: the return address lands at `tape[100000]`, `_STK`
becomes 99999 and the pointer jumps to the target — whereas the claim
demands a stack-overflow fault in this state. -/
theorem C4_counterexample :
    (sC4.tape _STK).data = _STACK_END ∧
    rcont (step sC4) = true ∧
    rdata (step sC4) _STK = some (_STACK_END - 1) ∧
    rdata (step sC4) _STACK_END = some 201001 ∧
    rpos (step sC4) = some 201500 := by decide

/-- C5 (amended): for data addresses `a` and `b` with `a` distinct from
the `_ZF` cell, running the lowering of `cmp a b` (`I_READ b` at `p`,
`I_CMP a` at `p+1`) leaves `_ZF = 1` iff `tape[a].data = tape[b].data`
and `_CF = 1` iff `tape[a].data < tape[b].data`, both of the values at
the moment of the compare, and an `I_JL t` at `p+2` then branches to `t`
exactly when `tape[a].data < tape[b].data`.  (For `a = _ZF` the `_ZF`
store precedes the `_CF` comparison and the claim fails:
`C5_counterexample`.) -/
theorem C5_amended (s s1 s2 s3 : State) (p a b t : Nat)
    (hp : _MAIN ≤ p)
    (ha : a ≤ _MEM_END) (hb : b ≤ _MEM_END)
    (hzf : a ≠ _ZF)
    (hpos : s.ptr.pos = p)
    (h0i : (s.tape p).ins = .I_READ) (h0d : (s.tape p).data = b)
    (h1i : (s.tape (p + 1)).ins = .I_CMP) (h1d : (s.tape (p + 1)).data = a)
    (h2i : (s.tape (p + 2)).ins = .I_JL) (h2d : (s.tape (p + 2)).data = t)
    (hstep1 : step s = .next s1) (hstep2 : step s1 = .next s2)
    (hstep3 : step s2 = .next s3) :
    (s2.tape _ZF).data = (if (s.tape a).data = (s.tape b).data then 1 else 0) ∧
    (s2.tape _CF).data = (if (s.tape a).data < (s.tape b).data then 1 else 0) ∧
    s3.ptr.pos = (if (s.tape a).data < (s.tape b).data then t else p + 3) := by
  subst hpos
  have hp' : 201000 ≤ s.ptr.pos := hp
  have hzf' : a ≠ 1 := hzf
  obtain ⟨hp1, ha1⟩ := pos_le_of_step_next s s1 hstep1
  rw [step_read s b hp1 ha1 h0i h0d] at hstep1
  simp only [StepResult.next.injEq] at hstep1
  subst hstep1
  obtain ⟨hp2, ha2⟩ := pos_le_of_step_next _ s2 hstep2
  rw [step_cmp _ a hp2 ha2 h1i h1d] at hstep2
  simp only [StepResult.next.injEq] at hstep2
  subst hstep2
  obtain ⟨hp3, ha3⟩ := pos_le_of_step_next _ s3 hstep3
  have hi3 : (((execCMP { s with ptr := { pos := s.ptr.pos + 1, data := (s.tape b).data, dtype := (s.tape b).dtype } } a)).tape
      ((execCMP { s with ptr := { pos := s.ptr.pos + 1, data := (s.tape b).data, dtype := (s.tape b).dtype } } a)).ptr.pos).ins = .I_JL := by
    rw [execCMP_pos, execCMP_tape_outside _ _ _ (show s.ptr.pos + 1 + 1 ≠ _ZF by show _ ≠ 1; omega)
      (show s.ptr.pos + 1 + 1 ≠ _CF by show _ ≠ 2; omega)]
    exact h2i
  have hd3 : (((execCMP { s with ptr := { pos := s.ptr.pos + 1, data := (s.tape b).data, dtype := (s.tape b).dtype } } a)).tape
      ((execCMP { s with ptr := { pos := s.ptr.pos + 1, data := (s.tape b).data, dtype := (s.tape b).dtype } } a)).ptr.pos).data = t := by
    rw [execCMP_pos, execCMP_tape_outside _ _ _ (show s.ptr.pos + 1 + 1 ≠ _ZF by show _ ≠ 1; omega)
      (show s.ptr.pos + 1 + 1 ≠ _CF by show _ ≠ 2; omega)]
    exact h2d
  rw [step_jl _ t hp3 ha3 hi3 hd3] at hstep3
  simp only [StepResult.next.injEq] at hstep3
  subst hstep3
  refine ⟨?_, ?_, ?_⟩
  · rw [execCMP_ZF]
  · rw [execCMP_CF _ _ hzf]
  · show (if ((execCMP { s with ptr := { pos := s.ptr.pos + 1, data := (s.tape b).data, dtype := (s.tape b).dtype } } a).tape _CF).data = 1
        then t else s.ptr.pos + 1 + 1 + 1) = _
    rw [execCMP_CF _ _ hzf]
    show (if (if (s.tape a).data < (s.tape b).data then 1 else 0) = 1 then t else s.ptr.pos + 1 + 1 + 1)
        = if (s.tape a).data < (s.tape b).data then t else s.ptr.pos + 3
    by_cases hab : (s.tape a).data < (s.tape b).data
    · simp [hab]
    · simp [hab]

/-- C5 counterexample: for `a = 1` (the `_ZF` register itself) and
`b = 5`, with `tape[1].data = tape[5].data = 7`, the claim requires
`_CF = 0` after `cmp` (since `7 < 7` is false) and the following `jl` to
fall through to `p + 3 = 201003`; but the `_ZF` store happens before the
`_CF` comparison re-reads `tape[1]`, so the code leaves `_CF = 1` and
`jl` branches to 201100. -/
theorem C5_counterexample :
    (sC5.tape 1).data = 7 ∧ (sC5.tape 5).data = 7 ∧
    (sC5.tape 201001).ins = .I_CMP ∧ (sC5.tape 201001).data = 1 ∧
    rdata (stepN 2 sC5) _CF = some 1 ∧
    rpos (stepN 3 sC5) = some 201100 := by decide

/-- C5 witness: the amended compare/branch semantics applied to the
concrete lowering in `sC5w` (`cmp 0x6 0x5` with `tape[6] = 3`,
`tape[5] = 9`, then `jl 201100`). -/
theorem C5_witness :
    ((6 : Nat) ≠ _ZF) ∧
    ((sC5w2.tape _ZF).data = (if (sC5w.tape 6).data = (sC5w.tape 5).data then 1 else 0) ∧
     (sC5w2.tape _CF).data = (if (sC5w.tape 6).data < (sC5w.tape 5).data then 1 else 0) ∧
     sC5w3.ptr.pos = (if (sC5w.tape 6).data < (sC5w.tape 5).data then 201100 else 201000 + 3)) :=
  ⟨by decide,
   C5_amended sC5w sC5w1 sC5w2 sC5w3 201000 6 5 201100 (by decide) (by decide) (by decide)
     (by decide) rfl rfl rfl rfl rfl rfl rfl rfl rfl rfl⟩

/-- C3: the `sub` lowering at a concrete direct-operand input
(`sub 0x5 0x6` emitted at the base of the code region).  Two cells are
emitted — `I_READ 6` then `I_SUB 5` — but the emit cursor advances by
three, not two, leaving an untouched gap cell before the next
instruction; the sibling `add` lowering advances by exactly two. -/
theorem C3_sub_eval :
    stC3.pos = _MAIN + 3 ∧
    (stC3.tape _MAIN).ins = .I_READ ∧ (stC3.tape _MAIN).data = 6 ∧
    (stC3.tape (_MAIN + 1)).ins = .I_SUB ∧ (stC3.tape (_MAIN + 1)).data = 5 ∧
    stC3.tape (_MAIN + 2) = initTape (_MAIN + 2) ∧
    (load_instruction ("add") 5 6 0 false false { tape := initTape, pos := _MAIN }).pos
      = _MAIN + 2 := by decide

/- Facts about the `put` expansion used for the string-operand claim. -/

lemma setInsData_at (t : Nat → BLOCK) (a : Nat) (i : INSTRUCTION) (v : Nat) :
    setInsData t a i v a = { t a with ins := i, data := v } := by
  simp [setInsData]

lemma setInsData_of_ne (t : Nat → BLOCK) (a : Nat) (i : INSTRUCTION) (v x : Nat) (h : x ≠ a) :
    setInsData t a i v x = t x := by
  simp [setInsData, h]

lemma setInsDataDtype_at (t : Nat → BLOCK) (a : Nat) (i : INSTRUCTION) (v d : Nat) :
    setInsDataDtype t a i v d a = { ins := i, data := v, dtype := d } := by
  simp [setInsDataDtype]

lemma setInsDataDtype_of_ne (t : Nat → BLOCK) (a : Nat) (i : INSTRUCTION) (v d x : Nat) (h : x ≠ a) :
    setInsDataDtype t a i v d x = t x := by
  simp [setInsDataDtype, h]

/-- The `put` lowering with direct operands, written out: an inert
`I_NONE` cell carrying the literal and its `dtype`, an `I_READ` of that
cell, and an `I_WRITE` to the destination, with the cursor moved three
cells on. -/
lemma load_put_direct (a1 a2 dt : Nat) (st : AsmState) :
    load_instruction ("put") a1 a2 dt false false st =
      { tape := setInsData (setInsData (setInsDataDtype st.tape st.pos .I_NONE a2 dt)
          (st.pos + 1) .I_READ st.pos) (st.pos + 2) .I_WRITE a1,
        pos := st.pos + 3 } := by
  rfl

lemma load_put_pos (a1 a2 dt : Nat) (st : AsmState) :
    (load_instruction ("put") a1 a2 dt false false st).pos = st.pos + 3 := by
  rw [load_put_direct]

lemma load_put_frame (a1 a2 dt : Nat) (st : AsmState) (x : Nat) (hx : x < st.pos) :
    (load_instruction ("put") a1 a2 dt false false st).tape x = st.tape x := by
  rw [load_put_direct]
  show setInsData (setInsData (setInsDataDtype st.tape st.pos .I_NONE a2 dt)
      (st.pos + 1) .I_READ st.pos) (st.pos + 2) .I_WRITE a1 x = st.tape x
  rw [setInsData_of_ne _ _ _ _ _ (by omega), setInsData_of_ne _ _ _ _ _ (by omega),
    setInsDataDtype_of_ne _ _ _ _ _ _ (by omega)]

/-- The string-operand loop never rewrites cells below the emit cursor
it starts from. -/
lemma load_string_put_frame (a1 : Nat) (chars : List Nat) (st : AsmState) (x : Nat)
    (hx : x < st.pos) :
    (load_string_operand ("put") a1 chars false false st).tape x = st.tape x := by
  induction chars generalizing a1 st with
  | nil => rfl
  | cons c rest ih =>
      show (load_string_operand ("put") (a1 + 1) rest false false
          (load_instruction ("put") a1 c 1 false false st)).tape x = st.tape x
      rw [ih (a1 + 1) (load_instruction ("put") a1 c 1 false false st)
        (by rw [load_put_pos]; omega)]
      exact load_put_frame a1 c 1 st x hx

/-- C7: a `put` whose second operand is a quoted string of `k`
characters emits `k` consecutive three-cell expansions — the emit cursor
moves by exactly `3 * k` — and the `i`-th expansion consists of an inert
`I_NONE` cell carrying the `i`-th character with `dtype = 1`, an
`I_READ` of that cell, and an `I_WRITE` whose destination is the first
operand's address plus `i`. -/
theorem C7_put_string (chars : List Nat) (a1 : Nat) (st : AsmState) :
    (load_string_operand ("put") a1 chars false false st).pos = st.pos + 3 * chars.length ∧
    (∀ i, i < chars.length →
      ((load_string_operand ("put") a1 chars false false st).tape (st.pos + 3 * i)).ins = .I_NONE ∧
      ((load_string_operand ("put") a1 chars false false st).tape (st.pos + 3 * i)).data = chars.getD i 0 ∧
      ((load_string_operand ("put") a1 chars false false st).tape (st.pos + 3 * i)).dtype = 1 ∧
      ((load_string_operand ("put") a1 chars false false st).tape (st.pos + 3 * i + 1)).ins = .I_READ ∧
      ((load_string_operand ("put") a1 chars false false st).tape (st.pos + 3 * i + 1)).data = st.pos + 3 * i ∧
      ((load_string_operand ("put") a1 chars false false st).tape (st.pos + 3 * i + 2)).ins = .I_WRITE ∧
      ((load_string_operand ("put") a1 chars false false st).tape (st.pos + 3 * i + 2)).data = a1 + i) := by
  induction chars generalizing a1 st with
  | nil =>
      refine ⟨by simp [load_string_operand], fun i hi => absurd hi (by simp)⟩
  | cons c rest ih =>
      have hpos1 : (load_instruction ("put") a1 c 1 false false st).pos = st.pos + 3 :=
        load_put_pos a1 c 1 st
      obtain ⟨ihpos, ihcells⟩ := ih (a1 + 1) (load_instruction ("put") a1 c 1 false false st)
      constructor
      · show (load_string_operand ("put") (a1 + 1) rest false false
            (load_instruction ("put") a1 c 1 false false st)).pos = st.pos + 3 * (c :: rest).length
        rw [ihpos, hpos1]
        simp only [List.length_cons]
        ring
      · intro i hi
        have c0 : (load_instruction ("put") a1 c 1 false false st).tape st.pos
            = { ins := .I_NONE, data := c, dtype := 1 } := by
          rw [load_put_direct]
          show setInsData (setInsData (setInsDataDtype st.tape st.pos .I_NONE c 1)
              (st.pos + 1) .I_READ st.pos) (st.pos + 2) .I_WRITE a1 st.pos = _
          rw [setInsData_of_ne _ _ _ _ _ (by omega), setInsData_of_ne _ _ _ _ _ (by omega),
            setInsDataDtype_at]
        have c1 : (load_instruction ("put") a1 c 1 false false st).tape (st.pos + 1)
            = { st.tape (st.pos + 1) with ins := .I_READ, data := st.pos } := by
          rw [load_put_direct]
          show setInsData (setInsData (setInsDataDtype st.tape st.pos .I_NONE c 1)
              (st.pos + 1) .I_READ st.pos) (st.pos + 2) .I_WRITE a1 (st.pos + 1) = _
          rw [setInsData_of_ne _ _ _ _ _ (by omega), setInsData_at,
            setInsDataDtype_of_ne _ _ _ _ _ _ (by omega)]
        have c2 : (load_instruction ("put") a1 c 1 false false st).tape (st.pos + 2)
            = { st.tape (st.pos + 2) with ins := .I_WRITE, data := a1 } := by
          rw [load_put_direct]
          show setInsData (setInsData (setInsDataDtype st.tape st.pos .I_NONE c 1)
              (st.pos + 1) .I_READ st.pos) (st.pos + 2) .I_WRITE a1 (st.pos + 2) = _
          rw [setInsData_at, setInsData_of_ne _ _ _ _ _ (by omega),
            setInsDataDtype_of_ne _ _ _ _ _ _ (by omega)]
        cases i with
        | zero =>
            have e0 : (load_string_operand ("put") (a1 + 1) rest false false
                (load_instruction ("put") a1 c 1 false false st)).tape st.pos
                = (load_instruction ("put") a1 c 1 false false st).tape st.pos :=
              load_string_put_frame (a1 + 1) rest _ st.pos (by rw [hpos1]; omega)
            have e1 : (load_string_operand ("put") (a1 + 1) rest false false
                (load_instruction ("put") a1 c 1 false false st)).tape (st.pos + 1)
                = (load_instruction ("put") a1 c 1 false false st).tape (st.pos + 1) :=
              load_string_put_frame (a1 + 1) rest _ (st.pos + 1) (by rw [hpos1]; omega)
            have e2 : (load_string_operand ("put") (a1 + 1) rest false false
                (load_instruction ("put") a1 c 1 false false st)).tape (st.pos + 2)
                = (load_instruction ("put") a1 c 1 false false st).tape (st.pos + 2) :=
              load_string_put_frame (a1 + 1) rest _ (st.pos + 2) (by rw [hpos1]; omega)
            simp only [load_string_operand, Nat.mul_zero, Nat.add_zero]
            exact ⟨by rw [e0, c0], by rw [e0, c0]; rfl, by rw [e0, c0],
              by rw [e1, c1], by rw [e1, c1], by rw [e2, c2], by rw [e2, c2]⟩
        | succ j =>
            have hj : j < rest.length := by
              simp only [List.length_cons] at hi
              omega
            obtain ⟨f1, f2, f3, f4, f5, f6, f7⟩ := ihcells j hj
            have epos : st.pos + 3 * (j + 1)
                = (load_instruction ("put") a1 c 1 false false st).pos + 3 * j := by
              rw [hpos1]
              ring
            simp only [load_string_operand]
            rw [epos]
            refine ⟨f1, ?_, f3, f4, f5, f6, ?_⟩
            · exact f2
            · rw [show a1 + (j + 1) = a1 + 1 + j by ring]
              exact f7

/-- C7 witness: the string expansion applied to `put` at display address
`_OUT` with the two-character string consisting of codes 72 and 105
("Hi"), checking the second (index 1) expansion. -/
theorem C7_witness :
    (load_string_operand ("put") _OUT [72, 105] false false stC7).pos = stC7.pos + 3 * 2 ∧
    ((load_string_operand ("put") _OUT [72, 105] false false stC7).tape (stC7.pos + 3 * 1)).ins = .I_NONE ∧
    ((load_string_operand ("put") _OUT [72, 105] false false stC7).tape (stC7.pos + 3 * 1)).data = 105 ∧
    ((load_string_operand ("put") _OUT [72, 105] false false stC7).tape (stC7.pos + 3 * 1)).dtype = 1 ∧
    ((load_string_operand ("put") _OUT [72, 105] false false stC7).tape (stC7.pos + 3 * 1 + 2)).data = _OUT + 1 :=
  ⟨(C7_put_string [72, 105] _OUT stC7).1,
   ((C7_put_string [72, 105] _OUT stC7).2 1 (by decide)).1,
   ((C7_put_string [72, 105] _OUT stC7).2 1 (by decide)).2.1,
   ((C7_put_string [72, 105] _OUT stC7).2 1 (by decide)).2.2.1,
   ((C7_put_string [72, 105] _OUT stC7).2 1 (by decide)).2.2.2.2.2.2⟩

end Tasm
